import Mathlib

/-!
Shallow embedding of `src/yara_scanner.py` (Unknown-Cyber-Inc/uc-software-scan).

The external YARA matching engine (rule compilation, byte matching, timeout
enforcement) is opaque to this repository, so it is modelled as an oracle
function from a file path and timeout to a `ScanOutcome`: either a list of
raw engine match objects, or one of the exception classes the Python code
catches (`yara.TimeoutError`, `yara.Error`, any other `Exception`).
Filesystem queries (`Path.exists`, `is_file`, `is_dir`, `glob`, `rglob`)
are likewise oracle functions supplied as parameters.

Python dictionaries keyed by strings are embedded as association lists
(`List (String × String)`) with Python's insert-or-overwrite semantics;
JSON objects with possibly-missing keys are embedded as structures with
`Option`-typed fields, and each `dict.get(key, default)` in the source
becomes `Option.getD` at the corresponding use site.
-/

set_option autoImplicit false

/-- One instance of a matched string inside an engine match object
(`string_match.instances[k]` in the Python source); only the byte offset
is consumed by the scanner. -/
structure StringInstanceData where
  offset : Nat
deriving DecidableEq, Repr

/-- One matched string of an engine match object (`match.strings[k]`):
an identifier and the list of its instances. -/
structure StringMatchData where
  identifier : String
  instances : List StringInstanceData
deriving DecidableEq, Repr

/-- Raw match object handed back by the external engine (`yara.Match`):
rule name, namespace, tags, metadata and matched strings. Metadata values
are the scalars the annotation code treats as strings. -/
structure RawMatch where
  rule : String
  ns : String
  tags : List String
  meta : List (String × String)
  strings : List StringMatchData
deriving DecidableEq, Repr

/-- Outcome of one engine invocation `rules.match(file_path, timeout=timeout)`:
a successful list of raw matches, or one of the three exception classes the
Python `scan_file` catches. -/
inductive ScanOutcome where
  | ok (results : List RawMatch)
  | timeoutError
  | engineError (msg : String)
  | otherError (msg : String)
deriving DecidableEq, Repr

/-- The normalized (identifier, offset) pair built at lines 95-98 of
`yara_scanner.py`: offset of the first instance, 0 when there is none. -/
structure StringRecord where
  identifier : String
  offset : Nat
deriving DecidableEq, Repr

/-- Normalized match dictionary built by `scan_file` (lines 85-98):
rule, namespace, tags, meta and at most the first 10 string records. -/
structure MatchData where
  rule : String
  ns : String
  tags : List String
  meta : List (String × String)
  strings : List StringRecord
deriving DecidableEq, Repr

/-- Translation of lines 95-98: one `strings` entry of a match dictionary,
taking the offset of the first instance and 0 if `instances` is empty. -/
def string_record_of (sm : StringMatchData) : StringRecord :=
  { identifier := sm.identifier,
    offset := match sm.instances with
      | [] => 0
      | inst :: _ => inst.offset }

/-- Translation of the loop body at lines 85-100 of `scan_file`: the match
dictionary for one raw engine match, with `strings` limited to the first 10
matched strings (`match.strings[:10]`). -/
def normalize_match (m : RawMatch) : MatchData :=
  { rule := m.rule,
    ns := m.ns,
    tags := m.tags,
    meta := m.meta,
    strings := (m.strings.take 10).map string_record_of }

/-- Translation of `scan_file` (lines 68-109): invoke the engine once; on
success normalize every raw match; on `yara.TimeoutError`, `yara.Error` or
any other exception print a warning (not modelled) and return the matches
accumulated so far, which is the empty list since the engine call is the
first statement of the `try` block. -/
def scan_file (engine : String → Nat → ScanOutcome) (file_path : String)
    (timeout : Nat) : List MatchData :=
  match engine file_path timeout with
  | .ok results => results.map normalize_match
  | .timeoutError => []
  | .engineError _ => []
  | .otherError _ => []

/-- Lookup in a metadata dictionary with a default, embedding
`match.get(meta, {}).get(key, default)`. -/
def metaGet (meta : List (String × String)) (key dflt : String) : String :=
  match meta.find? (fun kv => kv.1 == key) with
  | some kv => kv.2
  | none => dflt

/-- One entry of a package's `files` array in `binary-scan-results.json`;
keys may be absent, hence `Option` fields (`executable.get('file', '')`
and similar run at the use sites). The `type` key is called `ty` because
`type` is a Lean keyword. -/
structure ManifestFile where
  file : Option String
  sha256 : Option String
  ty : Option String
deriving DecidableEq, Repr

/-- One entry of the manifest's `packages` array: package name, version
and the files to scan. -/
structure PackageEntry where
  package : Option String
  version : Option String
  files : List ManifestFile
deriving DecidableEq, Repr

/-- Per-target result dictionary appended to `yara_results['results']`.
`scan_files_from_json` (lines 169-176) populates every field;
`scan_directory` (lines 235-238) builds a dictionary holding only `file`
and the matches (the `matches` dictionary key is called `matchList`
because `matches` is a Lean token), embedded here as `none` in the remaining fields (an absent
dictionary key). The `type` key is called `ty` (Lean keyword). -/
structure ResultRecord where
  file : String
  package : Option String
  version : Option String
  sha256 : Option String
  ty : Option String
  matchList : List MatchData
deriving DecidableEq, Repr

/-- The aggregate report dictionary `yara_results` (lines 130-135 and
200-205). -/
structure YaraResults where
  totalScanned : Nat
  totalMatches : Nat
  filesWithMatches : Nat
  results : List ResultRecord
deriving DecidableEq, Repr

/-- Initial value of `yara_results` in both scan functions. -/
def emptyResults : YaraResults :=
  { totalScanned := 0, totalMatches := 0, filesWithMatches := 0, results := [] }

/-- Full-path construction of lines 147-151: paths already starting with
`node_modules/` are joined to the manifest's parent directory, the rest to
its `node_modules` subdirectory. -/
def full_path_for (base_path file_path : String) : String :=
  if file_path.startsWith "node_modules/" then base_path ++ "/" ++ file_path
  else base_path ++ "/node_modules/" ++ file_path

/-- Body of the inner loop of `scan_files_from_json` (lines 145-177) for a
single manifest file entry: skip (unchanged accumulator) when the resolved
path does not exist; otherwise scan, count the target, and when there are
matches update the match counters and append the result record. -/
def json_scan_step (engine : String → Nat → ScanOutcome) (fexists : String → Bool)
    (base_path : String) (timeout : Nat) (package : PackageEntry)
    (acc : YaraResults) (executable : ManifestFile) : YaraResults :=
  let file_path := executable.file.getD ""
  let full_path := full_path_for base_path file_path
  if !(fexists full_path) then acc
  else
    let matchList := scan_file engine full_path timeout
    let acc1 := { acc with totalScanned := acc.totalScanned + 1 }
    if matchList.isEmpty then acc1
    else
      { acc1 with
        totalMatches := acc1.totalMatches + matchList.length,
        filesWithMatches := acc1.filesWithMatches + 1,
        results := acc1.results ++
          [{ file := file_path,
             package := some (package.package.getD "unknown"),
             version := some (package.version.getD "unknown"),
             sha256 := some (executable.sha256.getD ""),
             ty := some (executable.ty.getD ""),
             matchList := matchList }] }

/-- Translation of `scan_files_from_json` (lines 112-184): fold the step
over every file of every package of the parsed manifest. `fexists` embeds
`Path.exists`; `base_path` is the manifest's parent directory. -/
def scan_files_from_json (engine : String → Nat → ScanOutcome)
    (fexists : String → Bool) (base_path : String)
    (packages : List PackageEntry) (timeout : Nat) : YaraResults :=
  packages.foldl
    (fun acc package =>
      package.files.foldl (json_scan_step engine fexists base_path timeout package) acc)
    emptyResults

/-- One key insertion of `dict.fromkeys` at line 215: a no-op when the key
is already present, an append otherwise. -/
def dfk_step (acc : List String) (x : String) : List String :=
  if x ∈ acc then acc else acc ++ [x]

/-- Embedding of `dict.fromkeys` at line 215: keep the first occurrence of
each element, preserving order. -/
def dict_from_keys (l : List String) : List String :=
  l.foldl dfk_step []

/-- Target collection of `scan_directory` (lines 209-219): with a truthy
(non-empty) pattern list, concatenate the recursive-glob results of every
pattern and drop duplicates keeping first occurrences; otherwise take
every entry under the directory (`rglob('*')`); finally keep only regular
files. `rglob` and `is_file` embed the filesystem; paths are taken
relative to the scanned directory. -/
def directory_targets (rglob : String → List String)
    (include_patterns : Option (List String)) (is_file : String → Bool) :
    List String :=
  let files :=
    match include_patterns with
    | some patterns =>
        if patterns.isEmpty then rglob "*"
        else dict_from_keys (patterns.flatMap (fun pattern => rglob pattern))
    | none => rglob "*"
  files.filter (fun f => is_file f)

/-- Body of the loop of `scan_directory` (lines 223-243) for one target
file: scan, count the target, and when there are matches update the match
counters and append a result record holding only the relative path and the
matches. -/
def dir_scan_step (engine : String → Nat → ScanOutcome) (dir_path : String)
    (timeout : Nat) (acc : YaraResults) (file_path : String) : YaraResults :=
  let matchList := scan_file engine (dir_path ++ "/" ++ file_path) timeout
  let acc1 := { acc with totalScanned := acc.totalScanned + 1 }
  if matchList.isEmpty then acc1
  else
    { acc1 with
      totalMatches := acc1.totalMatches + matchList.length,
      filesWithMatches := acc1.filesWithMatches + 1,
      results := acc1.results ++
        [{ file := file_path,
           package := none,
           version := none,
           sha256 := none,
           ty := none,
           matchList := matchList }] }

/-- Translation of `scan_directory` (lines 187-245): fold the step over
the collected targets. -/
def scan_directory (engine : String → Nat → ScanOutcome)
    (rglob : String → List String) (is_file : String → Bool)
    (dir_path : String) (timeout : Nat)
    (include_patterns : Option (List String)) : YaraResults :=
  (directory_targets rglob include_patterns is_file).foldl
    (dir_scan_step engine dir_path timeout) emptyResults

/-- Splitting a character list at a separator character, with the
semantics of Python `str.split` for a one-character separator (splitting
the empty string gives one empty field). -/
def splitChar (sep : Char) : List Char → List (List Char)
  | [] => [[]]
  | c :: cs =>
      let rest := splitChar sep cs
      if c == sep then [] :: rest
      else (c :: rest.headD []) :: rest.tail

/-- Python `Path.stem` for the path strings this scanner handles: the final
path component without its last extension (a leading dot alone does not
start an extension). -/
def stemOf (p : String) : String :=
  let name := (splitChar '/' p.data).getLastD []
  match splitChar '.' name with
  | [] => String.mk name
  | [_] => String.mk name
  | [] :: [_] => String.mk name
  | parts => String.mk (List.intercalate ['.'] parts.dropLast)

/-- Python `Path.suffix` for the path strings this scanner handles: the last
extension of the final component, dot included, or the empty string. -/
def suffixOf (p : String) : String :=
  let name := (splitChar '/' p.data).getLastD []
  match splitChar '.' name with
  | [] => ""
  | [_] => ""
  | [] :: [_] => ""
  | parts => String.mk ('.' :: parts.getLastD [])

/-- Filesystem oracle for `load_rules`: existence, file/directory tests and
the two `glob` calls (`*.yar`, `*.yara`) on a directory, each returning the
globbed file paths. -/
structure RulesFS where
  pathExists : String → Bool
  isFile : String → Bool
  isDir : String → Bool
  globYar : String → List String
  globYara : String → List String

/-- Python dict insertion `d[k] = v`: overwrite in place when the key is
present (insertion order kept), append otherwise. -/
def dictInsert (d : List (String × String)) (k v : String) :
    List (String × String) :=
  if d.any (fun kv => kv.1 == k) then
    d.map (fun kv => if kv.1 == k then (k, v) else kv)
  else d ++ [(k, v)]

/-- Python dict lookup `d.get(k)` on the association-list embedding. -/
def dictGet? (d : List (String × String)) (k : String) : Option String :=
  (d.find? (fun kv => kv.1 == k)).map (fun kv => kv.2)

/-- Translation of the `rule_files` construction of `load_rules`
(lines 33-50): for every rules path in order, skip it when it does not
exist; when it is a file with suffix `.yar` or `.yara`, insert it keyed by
its stem; when it is a directory, insert every `*.yar` glob result and then
every `*.yara` glob result, each keyed by its stem. Compilation of the
mapping is left to the external engine. -/
def load_rules (fs : RulesFS) (rules_paths : List String) :
    List (String × String) :=
  rules_paths.foldl
    (fun rule_files path =>
      if !(fs.pathExists path) then rule_files
      else if fs.isFile path
              && (suffixOf path == ".yar" || suffixOf path == ".yara") then
        dictInsert rule_files (stemOf path) path
      else if fs.isDir path then
        let rf := (fs.globYar path).foldl
          (fun d rule_file => dictInsert d (stemOf rule_file) rule_file) rule_files
        (fs.globYara path).foldl
          (fun d rule_file => dictInsert d (stemOf rule_file) rule_file) rf
      else rule_files)
    []

/-- Rules-path assembly of `main` (lines 367-374): the bundled `rules`
directory, when present and not disabled, is inserted at index 0 in front
of the user-specified `--rules` paths. -/
def main_rules_paths (user_rules : List String) (no_bundled_rules : Bool)
    (bundled_rules_exists : Bool) (bundled_rules_path : String) : List String :=
  if !no_bundled_rules && bundled_rules_exists then
    bundled_rules_path :: user_rules
  else user_rules

/-- GitHub Actions annotation level: `::error`, `::warning` or `::notice`. -/
inductive Level where
  | error
  | warning
  | notice
deriving DecidableEq, Repr

/-- One emitted GitHub Actions annotation line. -/
structure Annotation where
  level : Level
  title : String
  message : String
deriving DecidableEq, Repr

/-- Level selection of `emit_github_annotations` (lines 277-283): severity
`critical` or `high` gives an error, `medium` a warning, anything else a
notice. -/
def severityLevel (severity : String) : Level :=
  if severity == "critical" || severity == "high" then Level.error
  else if severity == "medium" then Level.warning
  else Level.notice

/-- Annotation built for one match of one result record (lines 261-283):
message from package, file, rule and description; title from the
upper-cased severity and the category; level from the severity. -/
def annotationFor (result : ResultRecord) (m : MatchData) : Annotation :=
  let file_path := result.file
  let package := result.package.getD ""
  let rule := m.rule
  let severity := metaGet m.meta "severity" "unknown"
  let description := metaGet m.meta "description" ""
  let category := metaGet m.meta "category" ""
  let message :=
    (if package != "" then package ++ ": " ++ file_path else file_path)
      ++ " - " ++ rule
      ++ (if description != "" then " (" ++ description ++ ")" else "")
  { level := severityLevel severity,
    title := "YARA " ++ severity.toUpper ++ " - " ++ category,
    message := message }

/-- Body of the inner loop of `emit_github_annotations` (lines 264-283):
emit the annotation for one match and increment the high-severity counter
exactly in the `critical`/`high` (error-level) branch. -/
def emit_match_step (result : ResultRecord) (acc : List Annotation × Nat)
    (m : MatchData) : List Annotation × Nat :=
  let a := annotationFor result m
  (acc.1 ++ [a], acc.2 + (if a.level == Level.error then 1 else 0))

/-- Inner loop of `emit_github_annotations` over the matches of one result
record. -/
def emit_result_step (acc : List Annotation × Nat) (result : ResultRecord) :
    List Annotation × Nat :=
  result.matchList.foldl (emit_match_step result) acc

/-- Translation of `emit_github_annotations` (lines 248-285): emit one
annotation per match of every result record, in order, and return the
annotations together with the count of high-severity (error-level)
matches. -/
def emit_github_annotations (results : YaraResults) :
    List Annotation × Nat :=
  results.results.foldl emit_result_step ([], 0)

/-- Command-line arguments of `main` relevant to its control flow; the
`--include` patterns are called `includes` because `include` is a Lean
keyword. -/
structure Args where
  input : Option String
  dir : Option String
  includes : List String
  rules : List String
  timeout : Nat
  no_bundled_rules : Bool
deriving Repr

/-- Ways `main` terminates: `parser.error` when neither `--input` nor
`--dir` is given (argparse exits with status 2), the two explicit
`sys.exit(1)` sites before scanning plus the `sys.exit(1)` inside
`load_rules` on a compile error, or normal completion carrying the scan
report. -/
inductive ExitOutcome where
  | usageError
  | noRulesSpecified
  | noRulesLoaded
  | compileError
  | success (results : YaraResults)
deriving Repr

/-- Process exit status for each way `main` terminates; lines 415-419 exit
with `0` in both arms of the final `if`. -/
def exit_code : ExitOutcome → Nat
  | .usageError => 2
  | .noRulesSpecified => 1
  | .noRulesLoaded => 1
  | .compileError => 1
  | .success results => if results.filesWithMatches > 0 then 0 else 0

/-- Control flow of `main` (lines 361-419): usage error without `--input`
or `--dir`; assemble the rules paths (bundled first); exit 1 when none;
build the rule mapping, exiting 1 when it is empty (`load_rules` returns
`None`) or when the external compilation fails (`yara.SyntaxError`);
otherwise run the manifest scan when `--input` is given, else the
directory scan (an empty `--include` list is falsy and becomes `None`),
and complete normally with the report. -/
def main_model (args : Args) (fs : RulesFS) (bundled_rules_exists : Bool)
    (bundled_rules_path : String) (compile_ok : List (String × String) → Bool)
    (engine : String → Nat → ScanOutcome) (fexists : String → Bool)
    (manifest_base : String) (packages : List PackageEntry)
    (rglob : String → List String) (is_file : String → Bool) : ExitOutcome :=
  if args.input.isNone && args.dir.isNone then .usageError
  else
    let rules_paths := main_rules_paths args.rules args.no_bundled_rules
      bundled_rules_exists bundled_rules_path
    if rules_paths.isEmpty then .noRulesSpecified
    else
      let rule_files := load_rules fs rules_paths
      if rule_files.isEmpty then .noRulesLoaded
      else if !(compile_ok rule_files) then .compileError
      else
        match args.input with
        | some _ =>
            .success (scan_files_from_json engine fexists manifest_base
              packages args.timeout)
        | none =>
            .success (scan_directory engine rglob is_file (args.dir.getD "")
              args.timeout
              (if args.includes.isEmpty then none else some args.includes))

/-! ### Concrete fixtures used to exercise the development -/

/-- Example raw engine match with twelve matched strings and severity
`high`. -/
def exampleRaw : RawMatch :=
  { rule := "SuspiciousEval",
    ns := "evil",
    tags := ["npm"],
    meta := [("severity", "high"),
             ("description", "eval of fetched data"),
             ("category", "malware")],
    strings := (List.range 12).map (fun i =>
      { identifier := "$s", instances := [{ offset := i }] }) }

/-- Engine oracle that reports `exampleRaw` for every file. -/
def okEngine : String → Nat → ScanOutcome := fun _ _ => ScanOutcome.ok [exampleRaw]

/-- Engine oracle that times out on every file. -/
def errEngine : String → Nat → ScanOutcome := fun _ _ => ScanOutcome.timeoutError

/-- Recursive glob oracle returning a single JavaScript file. -/
def oneFileRglob : String → List String := fun _ => ["a.js"]

/-- Constantly-true string predicate (existence and regular-file oracles). -/
def allTrue : String → Bool := fun _ => true

/-! ### Counter invariants of the two scan folds -/

/-- The manifest scan step preserves the report counter invariant. -/
theorem json_scan_step_inv (e : String → Nat → ScanOutcome) (fx : String → Bool)
    (b : String) (t : Nat) (pkg : PackageEntry) (acc : YaraResults) (ex : ManifestFile)
    (h : acc.filesWithMatches ≤ acc.totalScanned ∧ acc.filesWithMatches ≤ acc.totalMatches) :
    (json_scan_step e fx b t pkg acc ex).filesWithMatches
        ≤ (json_scan_step e fx b t pkg acc ex).totalScanned
      ∧ (json_scan_step e fx b t pkg acc ex).filesWithMatches
        ≤ (json_scan_step e fx b t pkg acc ex).totalMatches := by
  obtain ⟨h1, h2⟩ := h
  by_cases hex : fx (full_path_for b (ex.file.getD "")) = true
  · by_cases hm : (scan_file e (full_path_for b (ex.file.getD "")) t).isEmpty = true
    · simp [json_scan_step, hex, hm]
      omega
    · have hlen : 1 ≤ (scan_file e (full_path_for b (ex.file.getD "")) t).length := by
        cases hsf : scan_file e (full_path_for b (ex.file.getD "")) t with
        | nil => rw [hsf] at hm; simp at hm
        | cons a l => simp
      simp [json_scan_step, hex, hm]
      omega
  · simp only [Bool.not_eq_true] at hex
    simp [json_scan_step, hex]
    omega

/-- The directory scan step preserves the report counter invariant. -/
theorem dir_scan_step_inv (e : String → Nat → ScanOutcome) (d : String) (t : Nat)
    (acc : YaraResults) (f : String)
    (h : acc.filesWithMatches ≤ acc.totalScanned ∧ acc.filesWithMatches ≤ acc.totalMatches) :
    (dir_scan_step e d t acc f).filesWithMatches ≤ (dir_scan_step e d t acc f).totalScanned
      ∧ (dir_scan_step e d t acc f).filesWithMatches ≤ (dir_scan_step e d t acc f).totalMatches := by
  obtain ⟨h1, h2⟩ := h
  by_cases hm : (scan_file e (d ++ "/" ++ f) t).isEmpty = true
  · simp [dir_scan_step, hm]
    omega
  · have hlen : 1 ≤ (scan_file e (d ++ "/" ++ f) t).length := by
      cases hsf : scan_file e (d ++ "/" ++ f) t with
      | nil => rw [hsf] at hm; simp at hm
      | cons a l => simp
    simp [dir_scan_step, hm]
    omega

/-- Folding any invariant-preserving step preserves the invariant. -/
theorem foldl_preserves_inv {α : Type} (P : YaraResults → Prop)
    (f : YaraResults → α → YaraResults)
    (hf : ∀ acc x, P acc → P (f acc x)) :
    ∀ (l : List α) (acc : YaraResults), P acc → P (l.foldl f acc) := by
  intro l
  induction l with
  | nil => intro acc h; exact h
  | cons x xs ih => intro acc h; exact ih _ (hf _ _ h)

/-- C1: for every completed scan (whether via `scan_files_from_json` or
`scan_directory`), the returned report satisfies
`filesWithMatches ≤ totalScanned` and `totalMatches ≥ filesWithMatches`. -/
theorem claim_c1_report_invariant (engine : String → Nat → ScanOutcome)
    (fexists : String → Bool) (base_path : String) (packages : List PackageEntry)
    (timeout : Nat) (rglob : String → List String) (is_file : String → Bool)
    (dir_path : String) (include_patterns : Option (List String)) :
    (scan_files_from_json engine fexists base_path packages timeout).filesWithMatches
        ≤ (scan_files_from_json engine fexists base_path packages timeout).totalScanned
      ∧ (scan_files_from_json engine fexists base_path packages timeout).totalMatches
        ≥ (scan_files_from_json engine fexists base_path packages timeout).filesWithMatches
      ∧ (scan_directory engine rglob is_file dir_path timeout include_patterns).filesWithMatches
        ≤ (scan_directory engine rglob is_file dir_path timeout include_patterns).totalScanned
      ∧ (scan_directory engine rglob is_file dir_path timeout include_patterns).totalMatches
        ≥ (scan_directory engine rglob is_file dir_path timeout include_patterns).filesWithMatches := by
  have hjson :
      (scan_files_from_json engine fexists base_path packages timeout).filesWithMatches
          ≤ (scan_files_from_json engine fexists base_path packages timeout).totalScanned
        ∧ (scan_files_from_json engine fexists base_path packages timeout).filesWithMatches
          ≤ (scan_files_from_json engine fexists base_path packages timeout).totalMatches := by
    unfold scan_files_from_json
    refine foldl_preserves_inv
      (fun r => r.filesWithMatches ≤ r.totalScanned ∧ r.filesWithMatches ≤ r.totalMatches)
      _ ?_ packages emptyResults ?_
    · intro acc pkg hacc
      exact foldl_preserves_inv _ _
        (fun a x h => json_scan_step_inv engine fexists base_path timeout pkg a x h)
        pkg.files acc hacc
    · exact ⟨Nat.le_refl 0, Nat.le_refl 0⟩
  have hdir :
      (scan_directory engine rglob is_file dir_path timeout include_patterns).filesWithMatches
          ≤ (scan_directory engine rglob is_file dir_path timeout include_patterns).totalScanned
        ∧ (scan_directory engine rglob is_file dir_path timeout include_patterns).filesWithMatches
          ≤ (scan_directory engine rglob is_file dir_path timeout include_patterns).totalMatches := by
    unfold scan_directory
    refine foldl_preserves_inv
      (fun r => r.filesWithMatches ≤ r.totalScanned ∧ r.filesWithMatches ≤ r.totalMatches)
      _ ?_ (directory_targets rglob include_patterns is_file) emptyResults ?_
    · intro acc f hacc
      exact dir_scan_step_inv engine dir_path timeout acc f hacc
    · exact ⟨Nat.le_refl 0, Nat.le_refl 0⟩
  exact ⟨hjson.1, hjson.2, hdir.1, hdir.2⟩

/-- C2: `scan_file` never propagates a per-file timeout or engine error to
its caller: on any such error it returns normally with the empty match
list, and the enclosing directory scan loop continues with the remaining
targets, the failed target counted as scanned only. -/
theorem claim_c2_scan_file_swallows_errors (engine : String → Nat → ScanOutcome)
    (fp : String) (timeout : Nat)
    (herr : engine fp timeout = ScanOutcome.timeoutError
      ∨ (∃ msg, engine fp timeout = ScanOutcome.engineError msg)
      ∨ (∃ msg, engine fp timeout = ScanOutcome.otherError msg)) :
    scan_file engine fp timeout = []
    ∧ (∀ (dir_path file_path : String) (acc : YaraResults) (rest : List String),
        dir_path ++ "/" ++ file_path = fp →
        List.foldl (dir_scan_step engine dir_path timeout) acc (file_path :: rest)
          = List.foldl (dir_scan_step engine dir_path timeout)
              { acc with totalScanned := acc.totalScanned + 1 } rest) := by
  have hempty : scan_file engine fp timeout = [] := by
    rcases herr with h | ⟨msg, h⟩ | ⟨msg, h⟩ <;> simp [scan_file, h]
  refine ⟨hempty, ?_⟩
  intro dir_path file_path acc rest hpath
  rw [List.foldl_cons]
  congr 1
  rw [dir_scan_step, hpath, hempty]
  simp

/-- Witness for C2 at a concrete timing-out engine. -/
theorem claim_c2_witness : scan_file errEngine "root/a.js" 60 = [] :=
  (claim_c2_scan_file_swallows_errors errEngine "root/a.js" 60 (Or.inl rfl)).1

/-- C3: every match record normalized by `scan_file` carries at most 10
(string-identifier, byte-offset) pairs, namely those derived from the
first 10 matched strings of the raw engine match it normalizes. -/
theorem claim_c3_strings_capped (engine : String → Nat → ScanOutcome)
    (fp : String) (timeout : Nat) (md : MatchData)
    (h : md ∈ scan_file engine fp timeout) :
    md.strings.length ≤ 10
    ∧ ∃ raw : RawMatch,
        (∃ results, engine fp timeout = ScanOutcome.ok results ∧ raw ∈ results)
        ∧ md = normalize_match raw
        ∧ md.strings = (raw.strings.take 10).map string_record_of := by
  cases heng : engine fp timeout with
  | ok results =>
      rw [scan_file, heng] at h
      obtain ⟨raw, hraw, heq⟩ := List.mem_map.mp h
      subst heq
      refine ⟨?_, raw, ⟨results, rfl, hraw⟩, rfl, rfl⟩
      simp only [normalize_match, List.length_map, List.length_take]
      exact Nat.min_le_left _ _
  | timeoutError => rw [scan_file, heng] at h; simp at h
  | engineError msg => rw [scan_file, heng] at h; simp at h
  | otherError msg => rw [scan_file, heng] at h; simp at h

/-- Witness for C3 at a concrete engine reporting a raw match with twelve
matched strings. -/
theorem claim_c3_witness : (normalize_match exampleRaw).strings.length ≤ 10 :=
  (claim_c3_strings_capped okEngine "root/a.js" 60 (normalize_match exampleRaw)
    (by simp [scan_file, okEngine])).1

/-! ### Properties of the `dict.fromkeys` deduplication -/

/-- The `dict.fromkeys` fold appends to its accumulator a sublist of the
input (first occurrences, in order). -/
theorem dfk_foldl_sublist (l : List String) :
    ∀ acc : List String, ∃ t, List.foldl dfk_step acc l = acc ++ t ∧ t.Sublist l := by
  induction l with
  | nil => intro acc; exact ⟨[], by simp, List.nil_sublist []⟩
  | cons x xs ih =>
      intro acc
      rw [List.foldl_cons]
      by_cases hx : x ∈ acc
      · obtain ⟨t, ht1, ht2⟩ := ih acc
        rw [dfk_step] at *
        exact ⟨t, by simpa [hx] using ht1, ht2.cons x⟩
      · obtain ⟨t, ht1, ht2⟩ := ih (acc ++ [x])
        refine ⟨x :: t, ?_, ht2.cons₂ x⟩
        rw [dfk_step, if_neg hx, ht1]
        simp
  
/-- The `dict.fromkeys` fold keeps the accumulator duplicate-free. -/
theorem dfk_foldl_nodup (l : List String) :
    ∀ acc : List String, acc.Nodup → (List.foldl dfk_step acc l).Nodup := by
  induction l with
  | nil => intro acc h; exact h
  | cons x xs ih =>
      intro acc h
      rw [List.foldl_cons]
      by_cases hx : x ∈ acc
      · rw [dfk_step, if_pos hx]
        exact ih acc h
      · rw [dfk_step, if_neg hx]
        refine ih (acc ++ [x]) ?_
        simp [List.nodup_append, h, hx]

/-- Membership after the `dict.fromkeys` fold: an element is present iff it
was in the accumulator or in the input. -/
theorem dfk_foldl_mem (l : List String) :
    ∀ (acc : List String) (x : String),
      x ∈ List.foldl dfk_step acc l ↔ x ∈ acc ∨ x ∈ l := by
  induction l with
  | nil => intro acc x; simp
  | cons a xs ih =>
      intro acc x
      rw [List.foldl_cons]
      by_cases ha : a ∈ acc
      · rw [dfk_step, if_pos ha, ih acc x]
        simp only [List.mem_cons]
        constructor
        · rintro (h | h)
          · exact Or.inl h
          · exact Or.inr (Or.inr h)
        · rintro (h | h | h)
          · exact Or.inl h
          · exact Or.inl (h ▸ ha)
          · exact Or.inr h
      · rw [dfk_step, if_neg ha, ih (acc ++ [a]) x]
        simp only [List.mem_append, List.mem_cons]
        tauto

/-- The directory scan step always increments `totalScanned` by one. -/
theorem dir_scan_step_scanned (e : String → Nat → ScanOutcome) (d : String)
    (t : Nat) (acc : YaraResults) (f : String) :
    (dir_scan_step e d t acc f).totalScanned = acc.totalScanned + 1 := by
  by_cases hm : (scan_file e (d ++ "/" ++ f) t).isEmpty = true <;>
    simp [dir_scan_step, hm]

/-- Folding the directory scan step scans exactly the folded targets. -/
theorem dir_foldl_scanned (e : String → Nat → ScanOutcome) (d : String) (t : Nat) :
    ∀ (l : List String) (acc : YaraResults),
      (List.foldl (dir_scan_step e d t) acc l).totalScanned
        = acc.totalScanned + l.length := by
  intro l
  induction l with
  | nil => intro acc; simp
  | cons x xs ih =>
      intro acc
      rw [List.foldl_cons, ih, dir_scan_step_scanned]
      simp [List.length_cons]
      omega

/-- C10: when `scan_directory` is given include patterns, the collected
target list is duplicate-free (first-occurrence order kept, as a sublist
of the concatenated glob results), contains only regular files, and the
fold scans each collected target exactly once (`totalScanned` equals the
number of targets). -/
theorem claim_c10_dedup_targets (engine : String → Nat → ScanOutcome)
    (rglob : String → List String) (is_file : String → Bool)
    (dir_path : String) (timeout : Nat) (patterns : List String)
    (hpat : patterns ≠ []) :
    (directory_targets rglob (some patterns) is_file).Nodup
    ∧ (∀ p ∈ directory_targets rglob (some patterns) is_file, is_file p = true)
    ∧ directory_targets rglob (some patterns) is_file
        = (dict_from_keys (patterns.flatMap rglob)).filter (fun f => is_file f)
    ∧ (dict_from_keys (patterns.flatMap rglob)).Sublist (patterns.flatMap rglob)
    ∧ (∀ x, x ∈ dict_from_keys (patterns.flatMap rglob) ↔ x ∈ patterns.flatMap rglob)
    ∧ (scan_directory engine rglob is_file dir_path timeout (some patterns)).totalScanned
        = (directory_targets rglob (some patterns) is_file).length := by
  have hne : patterns.isEmpty = false := by
    cases patterns with
    | nil => exact absurd rfl hpat
    | cons a l => rfl
  have htargets : directory_targets rglob (some patterns) is_file
      = (dict_from_keys (patterns.flatMap rglob)).filter (fun f => is_file f) := by
    rw [directory_targets, hne]
    simp
  have hnodup : (dict_from_keys (patterns.flatMap rglob)).Nodup :=
    dfk_foldl_nodup (patterns.flatMap rglob) [] List.nodup_nil
  refine ⟨?_, ?_, htargets, ?_, ?_, ?_⟩
  · rw [htargets]
    exact hnodup.filter _
  · intro p hp
    rw [htargets] at hp
    exact (List.mem_filter.mp hp).2
  · obtain ⟨t, ht1, ht2⟩ := dfk_foldl_sublist (patterns.flatMap rglob) []
    rw [dict_from_keys, ht1]
    simpa using ht2
  · intro x
    rw [dict_from_keys, dfk_foldl_mem]
    simp
  · rw [scan_directory, dir_foldl_scanned]
    simp [emptyResults]

/-- Witness for C10 at a concrete one-pattern glob oracle. -/
theorem claim_c10_witness :
    (directory_targets oneFileRglob (some ["*.js"]) allTrue).Nodup :=
  (claim_c10_dedup_targets okEngine oneFileRglob allTrue "root" 60 ["*.js"]
    (by simp)).1

/-- Result records accumulated by the directory scan fold carry no
manifest fields, a target path from the folded list, and a non-empty match
list. -/
theorem dir_foldl_results (e : String → Nat → ScanOutcome) (d : String)
    (t : Nat) (L : List String) :
    ∀ (l : List String) (acc : YaraResults),
      (∀ x ∈ l, x ∈ L) →
      (∀ r ∈ acc.results,
        r.package = none ∧ r.version = none ∧ r.sha256 = none ∧ r.ty = none
          ∧ r.file ∈ L ∧ r.matchList ≠ []) →
      ∀ r ∈ (List.foldl (dir_scan_step e d t) acc l).results,
        r.package = none ∧ r.version = none ∧ r.sha256 = none ∧ r.ty = none
          ∧ r.file ∈ L ∧ r.matchList ≠ [] := by
  intro l
  induction l with
  | nil => intro acc _ hacc; exact hacc
  | cons x xs ih =>
      intro acc hl hacc
      rw [List.foldl_cons]
      refine ih (dir_scan_step e d t acc x)
        (fun y hy => hl y (List.mem_cons_of_mem x hy)) ?_
      by_cases hm : (scan_file e (d ++ "/" ++ x) t).isEmpty = true
      · intro r hr
        refine hacc r ?_
        simpa [dir_scan_step, hm] using hr
      · intro r hr
        simp only [dir_scan_step, hm] at hr
        rw [if_neg] at hr
        · simp only [List.mem_append, List.mem_singleton] at hr
          rcases hr with hr | rfl
          · exact hacc r hr
          · refine ⟨rfl, rfl, rfl, rfl, hl x (List.mem_cons_self x xs), ?_⟩
            intro hc
            have hc2 : scan_file e (d ++ "/" ++ x) t = [] := hc
            rw [hc2] at hm
            simp at hm
        · simp

/-- C6: every per-target result record produced by `scan_directory`
identifies the target only by its path relative to the scan root (a
collected target path) plus its matches: the package, version, hash and
type fields are absent. -/
theorem claim_c6_dir_record_shape (engine : String → Nat → ScanOutcome)
    (rglob : String → List String) (is_file : String → Bool)
    (dir_path : String) (timeout : Nat)
    (include_patterns : Option (List String)) (r : ResultRecord)
    (h : r ∈ (scan_directory engine rglob is_file dir_path timeout
      include_patterns).results) :
    r.package = none ∧ r.version = none ∧ r.sha256 = none ∧ r.ty = none
      ∧ r.file ∈ directory_targets rglob include_patterns is_file
      ∧ r.matchList ≠ [] := by
  refine dir_foldl_results engine dir_path timeout
    (directory_targets rglob include_patterns is_file)
    (directory_targets rglob include_patterns is_file) emptyResults
    (fun x hx => hx) ?_ r ?_
  · intro s hs
    simp [emptyResults] at hs
  · exact h

/-- Witness for C6 at a concrete one-file directory scan with a match. -/
theorem claim_c6_witness :
    ({ file := "a.js", package := none, version := none, sha256 := none,
       ty := none, matchList := [normalize_match exampleRaw] } : ResultRecord).package = none
    ∧ ({ file := "a.js", package := none, version := none, sha256 := none,
         ty := none, matchList := [normalize_match exampleRaw] } : ResultRecord).version = none
    ∧ ({ file := "a.js", package := none, version := none, sha256 := none,
         ty := none, matchList := [normalize_match exampleRaw] } : ResultRecord).sha256 = none
    ∧ ({ file := "a.js", package := none, version := none, sha256 := none,
         ty := none, matchList := [normalize_match exampleRaw] } : ResultRecord).ty = none
    ∧ ({ file := "a.js", package := none, version := none, sha256 := none,
         ty := none, matchList := [normalize_match exampleRaw] } : ResultRecord).file
        ∈ directory_targets oneFileRglob (some ["*.js"]) allTrue
    ∧ ({ file := "a.js", package := none, version := none, sha256 := none,
         ty := none, matchList := [normalize_match exampleRaw] } : ResultRecord).matchList ≠ [] :=
  claim_c6_dir_record_shape okEngine oneFileRglob allTrue "root" 60
    (some ["*.js"])
    { file := "a.js", package := none, version := none, sha256 := none,
      ty := none, matchList := [normalize_match exampleRaw] }
    (by simp [scan_directory, directory_targets, dict_from_keys, dfk_step,
      oneFileRglob, allTrue, dir_scan_step, scan_file, okEngine, emptyResults])

/-- Shape required of a manifest-sourced result record: its fields are
taken from some manifest package entry and one of that package's file
entries, and its match list is non-empty. -/
def manifest_record_spec (packages : List PackageEntry) (r : ResultRecord) : Prop :=
  ∃ package ∈ packages, ∃ executable ∈ package.files,
    r.file = executable.file.getD ""
    ∧ r.package = some (package.package.getD "unknown")
    ∧ r.version = some (package.version.getD "unknown")
    ∧ r.sha256 = some (executable.sha256.getD "")
    ∧ r.ty = some (executable.ty.getD "")
    ∧ r.matchList ≠ []

/-- Characterization of the result list after one manifest scan step: it
is unchanged, or it gains exactly the record of the scanned entry, whose
match list is then non-empty. -/
theorem json_scan_step_results (e : String → Nat → ScanOutcome) (fx : String → Bool)
    (b : String) (t : Nat) (pkg : PackageEntry) (acc : YaraResults)
    (x : ManifestFile) :
    (json_scan_step e fx b t pkg acc x).results = acc.results
    ∨ ((json_scan_step e fx b t pkg acc x).results
        = acc.results ++
          [{ file := x.file.getD "",
             package := some (pkg.package.getD "unknown"),
             version := some (pkg.version.getD "unknown"),
             sha256 := some (x.sha256.getD ""),
             ty := some (x.ty.getD ""),
             matchList := scan_file e (full_path_for b (x.file.getD "")) t }]
        ∧ scan_file e (full_path_for b (x.file.getD "")) t ≠ []) := by
  by_cases hex : fx (full_path_for b (x.file.getD "")) = true
  · by_cases hm : (scan_file e (full_path_for b (x.file.getD "")) t).isEmpty = true
    · left
      simp [json_scan_step, hex, hm]
    · right
      refine ⟨?_, ?_⟩
      · simp [json_scan_step, hex, hm]
      · intro hc
        rw [hc] at hm
        simp at hm
  · left
    simp only [Bool.not_eq_true] at hex
    simp [json_scan_step, hex]

/-- Result records accumulated by the inner manifest scan fold satisfy the
manifest record shape. -/
theorem json_inner_results (e : String → Nat → ScanOutcome) (fx : String → Bool)
    (b : String) (t : Nat) (P : List PackageEntry) (pkg : PackageEntry)
    (hpkg : pkg ∈ P) :
    ∀ (l : List ManifestFile) (acc : YaraResults),
      (∀ x ∈ l, x ∈ pkg.files) →
      (∀ r ∈ acc.results, manifest_record_spec P r) →
      ∀ r ∈ (List.foldl (json_scan_step e fx b t pkg) acc l).results,
        manifest_record_spec P r := by
  intro l
  induction l with
  | nil => intro acc _ hacc; exact hacc
  | cons x xs ih =>
      intro acc hl hacc
      rw [List.foldl_cons]
      refine ih (json_scan_step e fx b t pkg acc x)
        (fun y hy => hl y (List.mem_cons_of_mem x hy)) ?_
      intro r hr
      rcases json_scan_step_results e fx b t pkg acc x with hres | ⟨hres, hne⟩
      · exact hacc r (hres ▸ hr)
      · rw [hres] at hr
        rcases List.mem_append.mp hr with hr | hr
        · exact hacc r hr
        · rw [List.mem_singleton] at hr
          subst hr
          exact ⟨pkg, hpkg, x, hl x (List.mem_cons_self x xs),
            rfl, rfl, rfl, rfl, rfl, hne⟩

/-- Result records accumulated by the outer manifest scan fold satisfy the
manifest record shape. -/
theorem json_outer_results (e : String → Nat → ScanOutcome) (fx : String → Bool)
    (b : String) (t : Nat) (P : List PackageEntry) :
    ∀ (ps : List PackageEntry) (acc : YaraResults),
      (∀ p ∈ ps, p ∈ P) →
      (∀ r ∈ acc.results, manifest_record_spec P r) →
      ∀ r ∈ (ps.foldl
        (fun acc package =>
          package.files.foldl (json_scan_step e fx b t package) acc)
        acc).results, manifest_record_spec P r := by
  intro ps
  induction ps with
  | nil => intro acc _ hacc; exact hacc
  | cons p rest ih =>
      intro acc hp hacc
      rw [List.foldl_cons]
      refine ih _ (fun q hq => hp q (List.mem_cons_of_mem p hq)) ?_
      exact json_inner_results e fx b t P p (hp p (List.mem_cons_self p rest))
        p.files acc (fun x hx => hx) hacc

/-- C7: every per-target result record produced by `scan_files_from_json`
carries the target's manifest file path together with the package name,
version, content hash and declared type taken from the manifest entry
(defaults standing in for absent keys), and corresponds to a target with
at least one match. -/
theorem claim_c7_manifest_record_fields (engine : String → Nat → ScanOutcome)
    (fexists : String → Bool) (base_path : String)
    (packages : List PackageEntry) (timeout : Nat) (r : ResultRecord)
    (h : r ∈ (scan_files_from_json engine fexists base_path packages timeout).results) :
    manifest_record_spec packages r := by
  refine json_outer_results engine fexists base_path timeout packages packages
    emptyResults (fun p hp => hp) ?_ r ?_
  · intro s hs
    simp [emptyResults] at hs
  · exact h

/-- Example manifest file entry. -/
def exampleManifestFile : ManifestFile :=
  { file := some "node_modules/leftpad/bin.node",
    sha256 := some "abc123",
    ty := some "elf" }

/-- Example manifest package entry. -/
def examplePackage : PackageEntry :=
  { package := some "leftpad", version := some "1.0.0",
    files := [exampleManifestFile] }

/-- Witness for C7 at a concrete one-package manifest scan with a match. -/
theorem claim_c7_witness :
    manifest_record_spec [examplePackage]
      { file := "node_modules/leftpad/bin.node",
        package := some "leftpad",
        version := some "1.0.0",
        sha256 := some "abc123",
        ty := some "elf",
        matchList := [normalize_match exampleRaw] } :=
  claim_c7_manifest_record_fields okEngine allTrue "proj" [examplePackage] 60
    { file := "node_modules/leftpad/bin.node",
      package := some "leftpad",
      version := some "1.0.0",
      sha256 := some "abc123",
      ty := some "elf",
      matchList := [normalize_match exampleRaw] }
    (by simp [scan_files_from_json, json_scan_step, examplePackage,
      exampleManifestFile, full_path_for, allTrue, scan_file, okEngine,
      emptyResults])

/-- The manifest scan step ignores the `files` field of its package
argument (it only reads the package name and version). -/
theorem json_scan_step_files_irrel (e : String → Nat → ScanOutcome)
    (fx : String → Bool) (b : String) (t : Nat) (pkg : PackageEntry)
    (files2 : List ManifestFile) :
    json_scan_step e fx b t { pkg with files := files2 }
      = json_scan_step e fx b t pkg := rfl

/-- Folding the manifest scan step over a file list visits exactly the
entries whose resolved path exists. -/
theorem json_inner_filter (e : String → Nat → ScanOutcome) (fx : String → Bool)
    (b : String) (t : Nat) (pkg : PackageEntry) :
    ∀ (l : List ManifestFile) (acc : YaraResults),
      List.foldl (json_scan_step e fx b t pkg) acc l
        = List.foldl (json_scan_step e fx b t pkg) acc
            (l.filter (fun ex => fx (full_path_for b (ex.file.getD "")))) := by
  intro l
  induction l with
  | nil => intro acc; rfl
  | cons x xs ih =>
      intro acc
      by_cases hex : fx (full_path_for b (x.file.getD "")) = true
      · have hfil : (x :: xs).filter (fun ex => fx (full_path_for b (ex.file.getD "")))
            = x :: xs.filter (fun ex => fx (full_path_for b (ex.file.getD ""))) := by
          simp [List.filter_cons, hex]
        rw [hfil, List.foldl_cons, List.foldl_cons, ih]
      · have hstep : json_scan_step e fx b t pkg acc x = acc := by
          simp only [Bool.not_eq_true] at hex
          simp [json_scan_step, hex]
        have hfil : (x :: xs).filter (fun ex => fx (full_path_for b (ex.file.getD "")))
            = xs.filter (fun ex => fx (full_path_for b (ex.file.getD ""))) := by
          simp only [Bool.not_eq_true] at hex
          simp [List.filter_cons, hex]
        rw [hfil, List.foldl_cons, hstep, ih]

/-- Folding the whole manifest scan over packages visits exactly the file
entries whose resolved path exists. -/
theorem json_outer_filter (e : String → Nat → ScanOutcome) (fx : String → Bool)
    (b : String) (t : Nat) :
    ∀ (ps : List PackageEntry) (acc : YaraResults),
      ps.foldl (fun acc package =>
          package.files.foldl (json_scan_step e fx b t package) acc) acc
        = (ps.map (fun pkg =>
            { pkg with files := pkg.files.filter (fun ex => fx (full_path_for b (ex.file.getD ""))) })).foldl
            (fun acc package =>
              package.files.foldl (json_scan_step e fx b t package) acc) acc := by
  intro ps
  induction ps with
  | nil => intro acc; rfl
  | cons p rest ih =>
      intro acc
      rw [List.map_cons, List.foldl_cons, List.foldl_cons, ih]
      congr 1
      rw [json_scan_step_files_irrel]
      exact json_inner_filter e fx b t p p.files acc

/-- C8: manifest entries whose resolved path does not exist are skipped:
the scan result is the same as on the manifest with those entries removed
(so they are not scanned and contribute to no counter and no result), and
the per-entry step leaves the accumulator untouched on a missing file, so
a missing file never aborts the scan. -/
theorem claim_c8_missing_files_skipped (engine : String → Nat → ScanOutcome)
    (fexists : String → Bool) (base_path : String)
    (packages : List PackageEntry) (timeout : Nat) :
    scan_files_from_json engine fexists base_path packages timeout
      = scan_files_from_json engine fexists base_path
          (packages.map (fun pkg =>
            { pkg with files := pkg.files.filter (fun ex => fexists (full_path_for base_path (ex.file.getD ""))) }))
          timeout
    ∧ ∀ (pkg : PackageEntry) (acc : YaraResults) (ex : ManifestFile),
        fexists (full_path_for base_path (ex.file.getD "")) = false →
        json_scan_step engine fexists base_path timeout pkg acc ex = acc := by
  constructor
  · rw [scan_files_from_json, scan_files_from_json]
    exact json_outer_filter engine fexists base_path timeout packages emptyResults
  · intro pkg acc ex hex
    simp [json_scan_step, hex]

/-- Witness for C8 at a concrete filesystem where no path exists. -/
theorem claim_c8_witness :
    json_scan_step okEngine (fun _ => false) "proj" 60 examplePackage
      emptyResults exampleManifestFile = emptyResults :=
  (claim_c8_missing_files_skipped okEngine (fun _ => false) "proj"
    [examplePackage] 60).2 examplePackage emptyResults exampleManifestFile rfl

/-- After overwriting every entry keyed `k` with `(k, v)`, the first entry
found for `k` is `(k, v)`. -/
theorem find?_map_update (d : List (String × String)) (k v : String)
    (h : d.any (fun kv => kv.1 == k) = true) :
    (d.map (fun kv => if kv.1 == k then (k, v) else kv)).find?
        (fun kv => kv.1 == k) = some (k, v) := by
  induction d with
  | nil => simp at h
  | cons kv tl ih =>
      by_cases hk : (kv.1 == k) = true
      · simp only [List.map_cons, if_pos hk]
        exact @List.find?_cons_of_pos _ (fun kv => kv.1 == k) (k, v)
          (List.map (fun kv => if kv.1 == k then (k, v) else kv) tl) (by simp)
      · have h2 : tl.any (fun kv => kv.1 == k) = true := by
          simpa [List.any_cons, hk] using h
        simp only [List.map_cons, if_neg hk]
        rw [@List.find?_cons_of_neg _ (fun kv => kv.1 == k) kv
          (List.map (fun kv => if kv.1 == k then (k, v) else kv) tl) hk]
        exact ih h2

/-- Python dict semantics of `dictInsert`: looking up the inserted key
afterwards yields the inserted value, whether or not the key was present
before (the later entry overwrites the earlier one). -/
theorem dictGet_insert (d : List (String × String)) (k v : String) :
    dictGet? (dictInsert d k v) k = some v := by
  rw [dictInsert]
  by_cases h : d.any (fun kv => kv.1 == k) = true
  · rw [if_pos h, dictGet?, find?_map_update d k v h]
    rfl
  · rw [if_neg h, dictGet?, List.find?_append]
    have hnone : d.find? (fun kv => kv.1 == k) = none := by
      rw [List.find?_eq_none]
      intro kv hkv hc
      exact h (List.any_eq_true.mpr ⟨kv, hkv, hc⟩)
    rw [hnone]
    simp [List.find?]

/-- C4: `load_rules` keys rule sources by file stem into a mapping where a
later entry for the same stem overwrites an earlier one (`dictInsert`
lookup always yields the latest insertion), so a user rule file processed
after all other rule paths owns its stem in the compiled mapping; and
`main` places the bundled rules directory before all user-specified rule
paths, so such a user file shadows a bundled rule of the same base name. -/
theorem claim_c4_user_rules_shadow (fs : RulesFS) (paths : List String)
    (p : String) (h1 : fs.pathExists p = true) (h2 : fs.isFile p = true)
    (h3 : (suffixOf p == ".yar" || suffixOf p == ".yara") = true) :
    dictGet? (load_rules fs (paths ++ [p])) (stemOf p) = some p
    ∧ (∀ (d : List (String × String)) (k v : String),
        dictGet? (dictInsert d k v) k = some v)
    ∧ (∀ (user_rules : List String) (bundled_rules_path : String),
        main_rules_paths user_rules false true bundled_rules_path
          = bundled_rules_path :: user_rules) := by
  refine ⟨?_, fun d k v => dictGet_insert d k v, fun u b => rfl⟩
  rw [load_rules, List.foldl_append]
  rw [List.foldl_cons, List.foldl_nil]
  rw [h1, h2, h3]
  simp only [Bool.not_true, Bool.and_self, if_neg, Bool.false_eq_true,
    not_false_eq_true, if_true]
  exact dictGet_insert _ (stemOf p) p

/-- Example rules filesystem: a bundled rules directory holding
`evil.yar`, and a user rule file of the same base name. -/
def exampleRulesFS : RulesFS :=
  { pathExists := fun _ => true,
    isFile := fun q => q == "user/evil.yar",
    isDir := fun q => q == "bundled",
    globYar := fun q => if q == "bundled" then ["bundled/evil.yar"] else [],
    globYara := fun _ => [] }

/-- Witness for C4: the user rule file `user/evil.yar`, listed after the
bundled directory holding `bundled/evil.yar`, owns the stem `evil`. -/
theorem claim_c4_witness :
    dictGet? (load_rules exampleRulesFS ["bundled", "user/evil.yar"])
        (stemOf "user/evil.yar") = some "user/evil.yar" :=
  (claim_c4_user_rules_shadow exampleRulesFS ["bundled"] "user/evil.yar"
    rfl (by decide) (by decide)).1

/-- Characterization of the inner annotation fold: it appends one
annotation per match and adds the number of error-level annotations to the
counter. -/
theorem emit_match_fold (result : ResultRecord) :
    ∀ (l : List MatchData) (acc : List Annotation × Nat),
      List.foldl (emit_match_step result) acc l
        = (acc.1 ++ l.map (annotationFor result),
           acc.2 + ((l.map (annotationFor result)).filter
             (fun a => a.level == Level.error)).length) := by
  intro l
  induction l with
  | nil => intro acc; simp
  | cons m ms ih =>
      intro acc
      rw [List.foldl_cons, ih]
      refine Prod.ext ?_ ?_
      · simp [emit_match_step]
      · simp only [emit_match_step, List.map_cons, List.filter_cons]
        by_cases he : ((annotationFor result m).level == Level.error) = true
        · simp only [he, if_true, List.length_cons]
          omega
        · simp only [he, if_false, Bool.false_eq_true]
          omega

/-- Characterization of the outer annotation fold over result records. -/
theorem emit_outer_fold :
    ∀ (rs : List ResultRecord) (acc : List Annotation × Nat),
      List.foldl emit_result_step acc rs
        = (acc.1 ++ rs.flatMap (fun r => r.matchList.map (annotationFor r)),
           acc.2 + ((rs.flatMap (fun r => r.matchList.map (annotationFor r))).filter
             (fun a => a.level == Level.error)).length) := by
  intro rs
  induction rs with
  | nil => intro acc; simp
  | cons r rest ih =>
      intro acc
      rw [List.foldl_cons, emit_result_step, emit_match_fold, ih]
      refine Prod.ext ?_ ?_
      · simp [List.flatMap_cons, List.append_assoc]
      · simp only [List.flatMap_cons, List.filter_append, List.length_append]
        omega

/-- C5: the annotation level for every match record is selected by its
`severity` metadata key (`critical`/`high` gives an error annotation,
`medium` a warning, anything else — including a missing key, defaulted to
`unknown` — a notice); the emitted annotations are exactly one per match
of every result record, and the returned high-severity count is the
number of error-level (critical/high) annotations. -/
theorem claim_c5_annotation_levels (results : YaraResults)
    (result : ResultRecord) (m : MatchData) :
    (annotationFor result m).level
        = (if metaGet m.meta "severity" "unknown" = "critical"
              ∨ metaGet m.meta "severity" "unknown" = "high" then Level.error
           else if metaGet m.meta "severity" "unknown" = "medium" then Level.warning
           else Level.notice)
    ∧ (emit_github_annotations results).1
        = results.results.flatMap (fun r => r.matchList.map (annotationFor r))
    ∧ (emit_github_annotations results).2
        = ((emit_github_annotations results).1.filter
            (fun a => a.level == Level.error)).length := by
  have hsev : ∀ s : String,
      severityLevel s = (if s = "critical" ∨ s = "high" then Level.error
        else if s = "medium" then Level.warning else Level.notice) := by
    intro s
    rw [severityLevel]
    by_cases h1 : s = "critical"
    · simp [h1]
    · by_cases h2 : s = "high"
      · simp [h1, h2]
      · by_cases h3 : s = "medium"
        · simp [h1, h2, h3]
        · simp [h1, h2, h3]
  have hemit := emit_outer_fold results.results ([], 0)
  refine ⟨hsev (metaGet m.meta "severity" "unknown"), ?_, ?_⟩
  · rw [emit_github_annotations, hemit]
    simp
  · rw [emit_github_annotations, hemit]
    simp

/-- C9: whenever a scan completes, `main` exits with status 0 regardless of
how many matches were found or their severity; a nonzero exit status
arises only from the pre-scan failures (missing `--input`/`--dir`, no rule
paths, no rule files loaded, or rule compilation failure). -/
theorem claim_c9_exit_zero_after_scan (args : Args) (fs : RulesFS)
    (bundled_rules_exists : Bool) (bundled_rules_path : String)
    (compile_ok : List (String × String) → Bool)
    (engine : String → Nat → ScanOutcome) (fexists : String → Bool)
    (manifest_base : String) (packages : List PackageEntry)
    (rglob : String → List String) (is_file : String → Bool) :
    (∀ r : YaraResults,
      main_model args fs bundled_rules_exists bundled_rules_path compile_ok
          engine fexists manifest_base packages rglob is_file
        = ExitOutcome.success r →
      exit_code (main_model args fs bundled_rules_exists bundled_rules_path
        compile_ok engine fexists manifest_base packages rglob is_file) = 0)
    ∧ (exit_code (main_model args fs bundled_rules_exists bundled_rules_path
          compile_ok engine fexists manifest_base packages rglob is_file) ≠ 0 →
        main_model args fs bundled_rules_exists bundled_rules_path compile_ok
            engine fexists manifest_base packages rglob is_file
          = ExitOutcome.usageError
        ∨ main_model args fs bundled_rules_exists bundled_rules_path compile_ok
            engine fexists manifest_base packages rglob is_file
          = ExitOutcome.noRulesSpecified
        ∨ main_model args fs bundled_rules_exists bundled_rules_path compile_ok
            engine fexists manifest_base packages rglob is_file
          = ExitOutcome.noRulesLoaded
        ∨ main_model args fs bundled_rules_exists bundled_rules_path compile_ok
            engine fexists manifest_base packages rglob is_file
          = ExitOutcome.compileError)
    ∧ (∀ results : YaraResults,
        exit_code (ExitOutcome.success results) = 0) := by
  refine ⟨?_, ?_, ?_⟩
  · intro r hr
    rw [hr]
    simp [exit_code]
  · intro hne
    cases ho : main_model args fs bundled_rules_exists bundled_rules_path
      compile_ok engine fexists manifest_base packages rglob is_file with
    | usageError => exact Or.inl rfl
    | noRulesSpecified => exact Or.inr (Or.inl rfl)
    | noRulesLoaded => exact Or.inr (Or.inr (Or.inl rfl))
    | compileError => exact Or.inr (Or.inr (Or.inr rfl))
    | success r =>
        exfalso
        apply hne
        rw [ho]
        simp [exit_code]
  · intro results
    simp [exit_code]

/-- Example command-line arguments: a directory scan with one include
pattern, one user rule path, bundled rules enabled. -/
def exampleArgs : Args :=
  { input := none, dir := some "root", includes := ["*.js"],
    rules := ["user/evil.yar"], timeout := 60, no_bundled_rules := false }

/-- Witness for C9 at a concrete completed directory scan. -/
theorem claim_c9_witness :
    exit_code (main_model exampleArgs exampleRulesFS true "bundled"
      (fun _ => true) okEngine allTrue "proj" [examplePackage] oneFileRglob
      allTrue) = 0 :=
  (claim_c9_exit_zero_after_scan exampleArgs exampleRulesFS true "bundled"
    (fun _ => true) okEngine allTrue "proj" [examplePackage] oneFileRglob
    allTrue).1
    (scan_directory okEngine oneFileRglob allTrue "root" 60 (some ["*.js"]))
    rfl
